import Mathlib

/-!
Verification of the libelec Rust binding (`src/rust/src/elec.rs`) against its
natural-language specification.

The Rust sources under `src/` are a thin FFI wrapper around the native libelec
engine.  The wrapper's own logic (kind assertions, `CString::new(..).unwrap()`
panics on NUL bytes, the `Drop` implementation's stop-then-destroy order, the
fixed `ELEC_MAX_SRCS` buffer) is embedded directly from the source.  The native
`libelec_*` entry points are not part of `src/`; where a claim depends on their
behaviour they are modelled from the specification, and each such definition
carries a doc comment beginning `Modelled from the spec:`.

Native component handles (`*mut elec_comp_t`) are embedded as indices into the
network's component list; the network handle (`*mut elec_t`) is the `elec_t`
state record.
-/

/-- The `CompType` enum from the source (`#[repr(C)] pub enum CompType`). -/
inductive CompType where
  | Batt
  | Gen
  | TRU
  | Inv
  | Load
  | Bus
  | CB
  | Shunt
  | Tie
  | Diode
  | LabelBox
deriving DecidableEq

/-- Uninterpreted carrier for Rust `f64` values.  The claims under scrutiny
only pass such values through unchanged, so the embedding never needs
floating-point arithmetic, only an opaque-but-concrete value type. -/
structure f64 where
  bits : Nat
deriving DecidableEq

/-- Modelled from the spec: the per-component state behind a native
`elec_comp_t` pointer.  Identity fields (name, location, kind, autogen flag)
are static (spec section 3); `conns` is the fixed connection adjacency;
`failed`/`shorted` are the generic failure flags; `cbClosed` is the breaker
set-state; `tieBuses` is the static bus list of a tie and `tiedList` its
current membership (spec section 4.4); `srcs` is the solver-computed
contributing-source set (spec section 3, up to a fixed maximum of 64). -/
structure elec_comp_t where
  name : String
  location : String
  ctype : CompType
  autogen : Bool := false
  conns : List Nat := []
  failed : Bool := false
  shorted : Bool := false
  cbClosed : Bool := true
  tieBuses : List Nat := []
  tiedList : List Nat := []
  randVoltsStddev : f64 := ⟨0⟩
  randFreqStddev : f64 := ⟨0⟩
  battChgRel : f64 := ⟨0⟩
  battTemp : f64 := ⟨0⟩
  srcs : List Nat := []
deriving DecidableEq

instance : Inhabited elec_comp_t :=
  ⟨{ name := "", location := "", ctype := CompType.LabelBox }⟩

/-- Modelled from the spec: the network state behind a native `elec_t`
pointer — the component arena plus the started flag of the simulation loop. -/
structure elec_t where
  comps : List elec_comp_t
  started : Bool
deriving DecidableEq

/-- Dereference a component handle (index into the arena). An out-of-range
index — impossible through the safe API, which only hands out valid
handles — yields the inert default component. -/
def getComp (elec : elec_t) (c : Nat) : elec_comp_t :=
  elec.comps.getD c default

/-- Update the component behind handle `c`, leaving the rest of the network
unchanged (out-of-range handles update nothing). -/
def updateComp (elec : elec_t) (c : Nat) (f : elec_comp_t → elec_comp_t) :
    elec_t :=
  { elec with comps := elec.comps.set c (f (getComp elec c)) }

/-- Abort raised by a failed Rust `assert!` / `assert_eq!` or a native
kind-validation assertion (the spec's InvalidOperation contract error). -/
inductive ContractError where
  | assertionFailure
deriving DecidableEq

/-- A Rust panic (here: `CString::new(..).unwrap()` on a string containing a
NUL byte). -/
inductive RustPanic where
  | panic
deriving DecidableEq

/-- True when the Rust string holds a NUL byte, which makes
`CString::new(s).unwrap()` panic. -/
def hasNulByte (s : String) : Bool :=
  s.data.any (fun ch => ch = Char.ofNat 0)

/-- Modelled from the spec: name lookup in the component arena (spec section
4.1, "lookup by unique name (fails with NotFound if absent)").  Returns the
handle of the first component carrying the name, or `none` (the null
pointer). -/
def findCompIdx : List elec_comp_t → String → Option Nat
  | [], _ => none
  | comp :: rest, name =>
      if comp.name = name then some 0
      else (findCompIdx rest name).map (· + 1)

/-- Modelled from the spec: `libelec_comp_find` — name lookup over the
network, null when absent. -/
def libelec_comp_find (elec : elec_t) (name : String) : Option Nat :=
  findCompIdx elec.comps name

/-- Native accessor `libelec_comp_get_type`. -/
def libelec_comp_get_type (elec : elec_t) (c : Nat) : CompType :=
  (getComp elec c).ctype

/-- Native accessor `libelec_comp_get_name`. -/
def libelec_comp_get_name (elec : elec_t) (c : Nat) : String :=
  (getComp elec c).name

/-- Native accessor `libelec_comp_get_location`. -/
def libelec_comp_get_location (elec : elec_t) (c : Nat) : String :=
  (getComp elec c).location

/-- Native accessor `libelec_comp_get_num_conns`. -/
def libelec_comp_get_num_conns (elec : elec_t) (c : Nat) : Nat :=
  (getComp elec c).conns.length

/-- Native accessor `libelec_comp_get_conn`: the i-th entry of the fixed
connection adjacency (spec section 3). -/
def libelec_comp_get_conn (elec : elec_t) (c : Nat) (i : Nat) : Nat :=
  (getComp elec c).conns.getD i 0

/-- The fixed maximum number of contributing sources, from the source
(`const ELEC_MAX_SRCS: usize = 64`). -/
def ELEC_MAX_SRCS : Nat := 64

/-- Modelled from the spec: `libelec_comp_get_srcs` fills the caller's
64-slot buffer with the contributing-source set, silently truncating beyond
the fixed cap (spec section 7, ResourceExhausted), and returns the count
filled. -/
def libelec_comp_get_srcs (elec : elec_t) (c : Nat) : List Nat :=
  (getComp elec c).srcs.take ELEC_MAX_SRCS

/-- Modelled from the spec: `libelec_comp_set_failed` records the failure
flag; identity fields are static and untouched (spec sections 3 and 8). -/
def libelec_comp_set_failed (elec : elec_t) (c : Nat) (failed : Bool) :
    elec_t :=
  updateComp elec c (fun comp => { comp with failed := failed })

/-- Modelled from the spec: `libelec_comp_set_shorted` records the shorted
flag (spec section 3). -/
def libelec_comp_set_shorted (elec : elec_t) (c : Nat) (shorted : Bool) :
    elec_t :=
  updateComp elec c (fun comp => { comp with shorted := shorted })

/-- Modelled from the spec: `libelec_gen_set_random_volts` — random voltage
noise is a generator feature (spec section 4.6) and random-noise injection is
validated against the component kind (spec sections 4.1 and 6), so the native
call asserts the target is a generator before recording the standard
deviation; it returns the value now in effect. -/
def libelec_gen_set_random_volts (elec : elec_t) (c : Nat) (stddev : f64) :
    Except ContractError (f64 × elec_t) :=
  if (getComp elec c).ctype = CompType.Gen then
    Except.ok (stddev, updateComp elec c
      (fun comp => { comp with randVoltsStddev := stddev }))
  else
    Except.error ContractError.assertionFailure

/-- Modelled from the spec: `libelec_gen_set_random_freq`, as for
`libelec_gen_set_random_volts`. -/
def libelec_gen_set_random_freq (elec : elec_t) (c : Nat) (stddev : f64) :
    Except ContractError (f64 × elec_t) :=
  if (getComp elec c).ctype = CompType.Gen then
    Except.ok (stddev, updateComp elec c
      (fun comp => { comp with randFreqStddev := stddev }))
  else
    Except.error ContractError.assertionFailure

/-- Modelled from the spec: `libelec_cb_set` records the breaker set-state
(spec section 4.3). -/
def libelec_cb_set (elec : elec_t) (c : Nat) (set : Bool) : elec_t :=
  updateComp elec c (fun comp => { comp with cbClosed := set })

/-- Modelled from the spec: `libelec_tie_set_list` installs an explicit tie
membership list (spec section 4.4). -/
def libelec_tie_set_list (elec : elec_t) (c : Nat) (list : List Nat) :
    elec_t :=
  updateComp elec c (fun comp => { comp with tiedList := list })

/-- Modelled from the spec: `libelec_tie_set_all` ties or unties all of the
tie's buses at once (spec section 4.4). -/
def libelec_tie_set_all (elec : elec_t) (c : Nat) (tied : Bool) : elec_t :=
  updateComp elec c
    (fun comp => { comp with tiedList := if tied then comp.tieBuses else [] })

/-- Modelled from the spec: `libelec_tie_get_all` reports whether the tie is
fully connected — every bus of the tie is in the current membership (spec
sections 4.4 and 8). -/
def libelec_tie_get_all (elec : elec_t) (c : Nat) : Bool :=
  (getComp elec c).tieBuses.all (fun b => (getComp elec c).tiedList.elem b)

/-- Modelled from the spec: `libelec_tie_get_num_buses` — the membership
count query of spec section 4.4 ("query membership, query count"). -/
def libelec_tie_get_num_buses (elec : elec_t) (c : Nat) : Nat :=
  (getComp elec c).tiedList.length

/-- Modelled from the spec: `libelec_tie_get_list` fills the caller's buffer
of capacity `cap` with the current membership list (spec section 4.4). -/
def libelec_tie_get_list (elec : elec_t) (c : Nat) (cap : Nat) : List Nat :=
  (getComp elec c).tiedList.take cap

/-- Modelled from the spec: `libelec_batt_set_chg_rel` — direct external
override of the battery's relative charge (spec section 4.5). -/
def libelec_batt_set_chg_rel (elec : elec_t) (c : Nat) (chg_rel : f64) :
    elec_t :=
  updateComp elec c (fun comp => { comp with battChgRel := chg_rel })

/-- Modelled from the spec: `libelec_batt_set_temp` — direct external
override of the battery's temperature (spec section 4.5). -/
def libelec_batt_set_temp (elec : elec_t) (c : Nat) (t : f64) : elec_t :=
  updateComp elec c (fun comp => { comp with battTemp := t })

/-- Modelled from the spec: `libelec_sys_is_started` reports whether the
simulation loop is running. -/
def libelec_sys_is_started (elec : elec_t) : Bool :=
  elec.started

/-!
The Rust wrapper layer, embedded from `src/rust/src/elec.rs`.  An
operation that can hit a Rust `assert!`/`assert_eq!` (or a native assertion)
returns `Except ContractError _`; one that can panic in
`CString::new(..).unwrap()` returns `Except RustPanic _`.
-/

/-- From the source: `ElecSys::new` — builds the `CString` (panicking on a
NUL byte), calls `libelec_new`, and wraps a non-null handle in `Some`, null
in `None`.  The native constructor is left as a parameter, so the wrapper's
behaviour is established for every possible native outcome. -/
def ElecSys.new (nativeNew : String → Option elec_t) (filename : String) :
    Except RustPanic (Option elec_t) :=
  if hasNulByte filename then Except.error RustPanic.panic
  else
    match nativeNew filename with
    | some elec => Except.ok (some elec)
    | none => Except.ok none

/-- From the source: `ElecSys::comp_find` — builds the `CString` (panicking
on a NUL byte) and calls `libelec_comp_find`; a non-null component pointer
becomes `Some`, null becomes `None`.  The method takes `&self`; the second
component of the result is the network state afterwards. -/
def ElecSys.comp_find (elec : elec_t) (name : String) :
    Except RustPanic (Option Nat) × elec_t :=
  if hasNulByte name then (Except.error RustPanic.panic, elec)
  else
    match libelec_comp_find elec name with
    | some comp => (Except.ok (some comp), elec)
    | none => (Except.ok none, elec)

/-- Teardown steps of `impl Drop for ElecSys`, in call order. -/
inductive DropAction where
  | stop
  | destroy
deriving DecidableEq

/-- From the source: `impl Drop for ElecSys` — `if libelec_sys_is_started {
libelec_sys_stop }; libelec_destroy`, rendered as the trace of native calls
the drop glue makes. -/
def ElecSys.dropTrace (elec : elec_t) : List DropAction :=
  (if libelec_sys_is_started elec then [DropAction.stop] else []) ++
    [DropAction.destroy]

/-- From the source: `ElecComp::get_name`. -/
def ElecComp.get_name (elec : elec_t) (c : Nat) : String :=
  libelec_comp_get_name elec c

/-- From the source: `ElecComp::get_type`. -/
def ElecComp.get_type (elec : elec_t) (c : Nat) : CompType :=
  libelec_comp_get_type elec c

/-- From the source: `ElecComp::get_location`. -/
def ElecComp.get_location (elec : elec_t) (c : Nat) : String :=
  libelec_comp_get_location elec c

/-- From the source: `ElecComp::get_num_conns`. -/
def ElecComp.get_num_conns (elec : elec_t) (c : Nat) : Nat :=
  libelec_comp_get_num_conns elec c

/-- From the source: `ElecComp::get_conn` — `assert!(i <
Self::get_num_conns(self))`, then the native connection lookup. -/
def ElecComp.get_conn (elec : elec_t) (c : Nat) (i : Nat) :
    Except ContractError Nat :=
  if i < ElecComp.get_num_conns elec c then
    Except.ok (libelec_comp_get_conn elec c i)
  else
    Except.error ContractError.assertionFailure

/-- From the source: `ElecComp::get_srcs` — a 64-slot buffer is filled by
`libelec_comp_get_srcs`, which returns the count `n`; the wrapper then pushes
slots `0 .. n` into the result vector. -/
def ElecComp.get_srcs (elec : elec_t) (c : Nat) : List Nat :=
  let filled := libelec_comp_get_srcs elec c
  (List.range filled.length).map (fun i => filled.getD i 0)

/-- From the source: `ElecComp::set_failed` — no kind check in the wrapper,
straight through to the native call. -/
def ElecComp.set_failed (elec : elec_t) (c : Nat) (failed : Bool) :
    Except ContractError elec_t :=
  Except.ok (libelec_comp_set_failed elec c failed)

/-- From the source: `ElecComp::get_failed`. -/
def ElecComp.get_failed (elec : elec_t) (c : Nat) : Bool :=
  (getComp elec c).failed

/-- From the source: `ElecComp::set_shorted` — no kind check in the wrapper,
straight through to the native call. -/
def ElecComp.set_shorted (elec : elec_t) (c : Nat) (shorted : Bool) :
    Except ContractError elec_t :=
  Except.ok (libelec_comp_set_shorted elec c shorted)

/-- From the source: `ElecComp::set_random_volts` — no kind check in the
wrapper; the (spec-modelled) native call validates the generator kind. -/
def ElecComp.set_random_volts (elec : elec_t) (c : Nat) (stddev : f64) :
    Except ContractError (f64 × elec_t) :=
  libelec_gen_set_random_volts elec c stddev

/-- From the source: `ElecComp::set_random_freq` — no kind check in the
wrapper; the (spec-modelled) native call validates the generator kind. -/
def ElecComp.set_random_freq (elec : elec_t) (c : Nat) (stddev : f64) :
    Except ContractError (f64 × elec_t) :=
  libelec_gen_set_random_freq elec c stddev

/-- From the source: `ElecComp::cb_set` — `assert_eq!(self.get_type(),
CompType::CB)`, then the native call. -/
def ElecComp.cb_set (elec : elec_t) (c : Nat) (set : Bool) :
    Except ContractError elec_t :=
  if ElecComp.get_type elec c = CompType.CB then
    Except.ok (libelec_cb_set elec c set)
  else
    Except.error ContractError.assertionFailure

/-- From the source: `ElecComp::tie_set_list` — `assert_eq!` on the Tie
kind, then the native call on the mapped handle list. -/
def ElecComp.tie_set_list (elec : elec_t) (c : Nat) (list : List Nat) :
    Except ContractError elec_t :=
  if ElecComp.get_type elec c = CompType.Tie then
    Except.ok (libelec_tie_set_list elec c list)
  else
    Except.error ContractError.assertionFailure

/-- From the source: `ElecComp::tie_set_all` — `assert_eq!` on the Tie kind,
then the native call. -/
def ElecComp.tie_set_all (elec : elec_t) (c : Nat) (tied : Bool) :
    Except ContractError elec_t :=
  if ElecComp.get_type elec c = CompType.Tie then
    Except.ok (libelec_tie_set_all elec c tied)
  else
    Except.error ContractError.assertionFailure

/-- From the source: `ElecComp::tie_get_all` — `assert_eq!` on the Tie kind,
then the native query. -/
def ElecComp.tie_get_all (elec : elec_t) (c : Nat) :
    Except ContractError Bool :=
  if ElecComp.get_type elec c = CompType.Tie then
    Except.ok (libelec_tie_get_all elec c)
  else
    Except.error ContractError.assertionFailure

/-- From the source: `ElecComp::tie_get_list` — `assert_eq!` on the Tie
kind, then a buffer of capacity `libelec_tie_get_num_buses` filled by
`libelec_tie_get_list`. -/
def ElecComp.tie_get_list (elec : elec_t) (c : Nat) :
    Except ContractError (List Nat) :=
  if ElecComp.get_type elec c = CompType.Tie then
    let n_comps := libelec_tie_get_num_buses elec c
    Except.ok (libelec_tie_get_list elec c n_comps)
  else
    Except.error ContractError.assertionFailure

/-- From the source: `ElecComp::batt_set_chg_rel` — `assert_eq!` on the Batt
kind, then the native call. -/
def ElecComp.batt_set_chg_rel (elec : elec_t) (c : Nat) (chg_rel : f64) :
    Except ContractError elec_t :=
  if ElecComp.get_type elec c = CompType.Batt then
    Except.ok (libelec_batt_set_chg_rel elec c chg_rel)
  else
    Except.error ContractError.assertionFailure

/-- From the source: `ElecComp::batt_set_temp` — `assert_eq!` on the Batt
kind, then the native call. -/
def ElecComp.batt_set_temp (elec : elec_t) (c : Nat) (t : f64) :
    Except ContractError elec_t :=
  if ElecComp.get_type elec c = CompType.Batt then
    Except.ok (libelec_batt_set_temp elec c t)
  else
    Except.error ContractError.assertionFailure

/-- Boolean success test for an `Except` result (a failed assertion or panic
is `false`). -/
def exceptOk : Except ε α → Bool
  | Except.ok _ => true
  | Except.error _ => false

/-!
General-purpose helper instances and lemmas.
-/

/-- Decidable equality of `Except` results, so witnesses can be settled by
evaluation. -/
def exceptDecEq [DecidableEq ε] [DecidableEq α] : DecidableEq (Except ε α)
  | Except.ok x, Except.ok y =>
      if h : x = y then Decidable.isTrue (by rw [h])
      else Decidable.isFalse (fun hc => h (Except.ok.inj hc))
  | Except.ok _, Except.error _ =>
      Decidable.isFalse (fun hc => Except.noConfusion hc)
  | Except.error _, Except.ok _ =>
      Decidable.isFalse (fun hc => Except.noConfusion hc)
  | Except.error x, Except.error y =>
      if h : x = y then Decidable.isTrue (by rw [h])
      else Decidable.isFalse (fun hc => h (Except.error.inj hc))

instance [DecidableEq ε] [DecidableEq α] : DecidableEq (Except ε α) :=
  exceptDecEq

theorem getD_set_self (l : List α) (i : Nat) (a d : α) :
    (l.set i a).getD i d = if i < l.length then a else l.getD i d := by
  induction l generalizing i with
  | nil => simp
  | cons x xs ih =>
    cases i with
    | zero => simp
    | succ n => simpa [Nat.succ_lt_succ_iff] using ih n

theorem getComp_updateComp_self (elec : elec_t) (c : Nat)
    (f : elec_comp_t → elec_comp_t) :
    getComp (updateComp elec c f) c =
      if c < elec.comps.length then f (getComp elec c)
      else getComp elec c :=
  getD_set_self elec.comps c (f (getComp elec c)) default

theorem getComp_default_of_ge (elec : elec_t) (c : Nat)
    (h : elec.comps.length ≤ c) : getComp elec c = default :=
  List.getD_eq_default _ _ h

theorem lt_length_of_ctype_ne_default (elec : elec_t) (c : Nat)
    (h : (getComp elec c).ctype ≠ CompType.LabelBox) :
    c < elec.comps.length := by
  by_contra hc
  apply h
  rw [getComp_default_of_ge elec c (Nat.le_of_not_lt hc)]
  rfl

theorem all_elem_self (l : List Nat) :
    (l.all fun b => l.elem b) = true := by
  simp only [List.all_eq_true]
  intro x hx
  exact List.elem_iff.mpr hx

theorem range_map_getD (l : List Nat) :
    (List.range l.length).map (fun i => l.getD i 0) = l := by
  apply List.ext_getElem
  · simp
  · intro i h1 h2
    simp only [List.getElem_map, List.getElem_range]
    exact List.getD_eq_getElem l 0 h2

theorem findCompIdx_eq_none_iff (l : List elec_comp_t) (name : String) :
    findCompIdx l name = none ↔ ∀ comp ∈ l, comp.name ≠ name := by
  induction l with
  | nil => simp [findCompIdx]
  | cons x xs ih =>
    by_cases hx : x.name = name
    · simp [findCompIdx, hx]
    · simp [findCompIdx, hx, Option.map_eq_none', ih]

theorem findCompIdx_some_lt (l : List elec_comp_t) (name : String) (c : Nat)
    (h : findCompIdx l name = some c) : c < l.length := by
  induction l generalizing c with
  | nil => simp [findCompIdx] at h
  | cons x xs ih =>
    by_cases hx : x.name = name
    · simp [findCompIdx, hx] at h
      simp
      omega
    · simp [findCompIdx, hx, Option.map_eq_some'] at h
      obtain ⟨j, hj, rfl⟩ := h
      have := ih j hj
      simp
      omega

theorem findCompIdx_some_name (l : List elec_comp_t) (name : String)
    (c : Nat) (h : findCompIdx l name = some c) :
    (l.getD c default).name = name := by
  induction l generalizing c with
  | nil => simp [findCompIdx] at h
  | cons x xs ih =>
    by_cases hx : x.name = name
    · simp [findCompIdx, hx] at h
      subst h
      simpa using hx
    · simp [findCompIdx, hx, Option.map_eq_some'] at h
      obtain ⟨j, hj, rfl⟩ := h
      simpa using ih j hj

/-!
The claims.
-/

/-- C1: each kind-specific mutation — breaker set, tie set (list and all),
battery charge/temperature override, random-noise injection — succeeds
exactly when the target component's kind matches the operation's required
kind, and is otherwise rejected as a contract error (assertion failure)
rather than silently ignored; the generic failure and short flags apply to
every component kind and therefore always proceed. -/
theorem c1_mutations_validate_kind (elec : elec_t) (c : Nat) (b : Bool)
    (list : List Nat) (v : f64) :
    (exceptOk (ElecComp.cb_set elec c b) = true ↔
      ElecComp.get_type elec c = CompType.CB) ∧
    (exceptOk (ElecComp.tie_set_list elec c list) = true ↔
      ElecComp.get_type elec c = CompType.Tie) ∧
    (exceptOk (ElecComp.tie_set_all elec c b) = true ↔
      ElecComp.get_type elec c = CompType.Tie) ∧
    (exceptOk (ElecComp.batt_set_chg_rel elec c v) = true ↔
      ElecComp.get_type elec c = CompType.Batt) ∧
    (exceptOk (ElecComp.batt_set_temp elec c v) = true ↔
      ElecComp.get_type elec c = CompType.Batt) ∧
    (exceptOk (ElecComp.set_random_volts elec c v) = true ↔
      ElecComp.get_type elec c = CompType.Gen) ∧
    (exceptOk (ElecComp.set_random_freq elec c v) = true ↔
      ElecComp.get_type elec c = CompType.Gen) ∧
    exceptOk (ElecComp.set_failed elec c b) = true ∧
    exceptOk (ElecComp.set_shorted elec c b) = true := by
  refine ⟨?_, ?_, ?_, ?_, ?_, ?_, ?_, rfl, rfl⟩
  · by_cases h : ElecComp.get_type elec c = CompType.CB <;>
      simp [ElecComp.cb_set, exceptOk, h]
  · by_cases h : ElecComp.get_type elec c = CompType.Tie <;>
      simp [ElecComp.tie_set_list, exceptOk, h]
  · by_cases h : ElecComp.get_type elec c = CompType.Tie <;>
      simp [ElecComp.tie_set_all, exceptOk, h]
  · by_cases h : ElecComp.get_type elec c = CompType.Batt <;>
      simp [ElecComp.batt_set_chg_rel, exceptOk, h]
  · by_cases h : ElecComp.get_type elec c = CompType.Batt <;>
      simp [ElecComp.batt_set_temp, exceptOk, h]
  · by_cases h : (getComp elec c).ctype = CompType.Gen <;>
      simp [ElecComp.set_random_volts, libelec_gen_set_random_volts,
        ElecComp.get_type, libelec_comp_get_type, exceptOk, h]
  · by_cases h : (getComp elec c).ctype = CompType.Gen <;>
      simp [ElecComp.set_random_freq, libelec_gen_set_random_freq,
        ElecComp.get_type, libelec_comp_get_type, exceptOk, h]

/-- C3: the contributing-source set read through `ElecComp::get_srcs` never
holds more than the fixed maximum `ELEC_MAX_SRCS = 64` entries; sources
beyond the cap are silently dropped (the result is the truncation of the
solver's source set) and the call is total — it never fails. -/
theorem c3_get_srcs_capped (elec : elec_t) (c : Nat) :
    (ElecComp.get_srcs elec c).length ≤ ELEC_MAX_SRCS ∧
    ElecComp.get_srcs elec c =
      (getComp elec c).srcs.take ELEC_MAX_SRCS := by
  constructor
  · simp [ElecComp.get_srcs, libelec_comp_get_srcs, List.length_take]
  · exact range_map_getD (libelec_comp_get_srcs elec c)

/-- C4: the teardown glue of `impl Drop for ElecSys` invokes the native stop
exactly when the system is currently started, and always ends by destroying
the network; the trace is defined for every network state, so dropping is
safe unconditionally, started or not. -/
theorem c4_drop_stops_iff_started (elec : elec_t) :
    ElecSys.dropTrace elec =
      (if libelec_sys_is_started elec = true then
        [DropAction.stop, DropAction.destroy]
       else [DropAction.destroy]) ∧
    (DropAction.stop ∈ ElecSys.dropTrace elec ↔
      libelec_sys_is_started elec = true) ∧
    (ElecSys.dropTrace elec).getLast? = some DropAction.destroy := by
  by_cases h : elec.started <;>
    simp [ElecSys.dropTrace, libelec_sys_is_started, h, List.getLast?]

/-- C2: on a tie, installing a membership list and immediately reading it
back yields the same set of components (here literally the same list, hence
equal up to ordering); and tying all buses then querying "get all" yields
true. -/
theorem c2_tie_round_trip (elec elec2 : elec_t) (c : Nat) (L : List Nat) :
    (ElecComp.tie_set_list elec c L = Except.ok elec2 →
      ∃ M, ElecComp.tie_get_list elec2 c = Except.ok M ∧ M.Perm L) ∧
    (ElecComp.tie_set_all elec c true = Except.ok elec2 →
      ElecComp.tie_get_all elec2 c = Except.ok true) := by
  constructor
  · intro h
    by_cases htype : ElecComp.get_type elec c = CompType.Tie
    · have hc : c < elec.comps.length := by
        apply lt_length_of_ctype_ne_default
        rw [show (getComp elec c).ctype = ElecComp.get_type elec c from rfl,
          htype]
        intro hcontra
        cases hcontra
      have h2 : elec2 = libelec_tie_set_list elec c L := by
        rw [ElecComp.tie_set_list, if_pos htype] at h
        exact (Except.ok.inj h).symm
      subst h2
      have hget : getComp (libelec_tie_set_list elec c L) c =
          { getComp elec c with tiedList := L } := by
        rw [libelec_tie_set_list, getComp_updateComp_self, if_pos hc]
      refine ⟨L, ?_, List.Perm.refl L⟩
      have htype2 : ElecComp.get_type (libelec_tie_set_list elec c L) c =
          CompType.Tie := by
        rw [ElecComp.get_type, libelec_comp_get_type, hget]
        exact htype
      simp only [ElecComp.tie_get_list, if_pos htype2,
        libelec_tie_get_list, libelec_tie_get_num_buses, hget]
      simp [List.take_length]
    · rw [ElecComp.tie_set_list, if_neg htype] at h
      cases h
  · intro h
    by_cases htype : ElecComp.get_type elec c = CompType.Tie
    · have hc : c < elec.comps.length := by
        apply lt_length_of_ctype_ne_default
        rw [show (getComp elec c).ctype = ElecComp.get_type elec c from rfl,
          htype]
        intro hcontra
        cases hcontra
      have h2 : elec2 = libelec_tie_set_all elec c true := by
        rw [ElecComp.tie_set_all, if_pos htype] at h
        exact (Except.ok.inj h).symm
      subst h2
      have hget : getComp (libelec_tie_set_all elec c true) c =
          { getComp elec c with tiedList := (getComp elec c).tieBuses } := by
        rw [libelec_tie_set_all, getComp_updateComp_self, if_pos hc]
        simp
      rw [ElecComp.tie_get_all, if_pos (by
        rw [ElecComp.get_type, libelec_comp_get_type, hget]
        exact htype)]
      rw [libelec_tie_get_all, hget]
      simp [all_elem_self]
    · rw [ElecComp.tie_set_all, if_neg htype] at h
      cases h

/-- C7: setting the failure flag on a component leaves its static identity
fields — name, location and kind — exactly as they were. -/
theorem c7_set_failed_preserves_identity (elec elec2 : elec_t) (c : Nat)
    (h : ElecComp.set_failed elec c true = Except.ok elec2) :
    ElecComp.get_name elec2 c = ElecComp.get_name elec c ∧
    ElecComp.get_location elec2 c = ElecComp.get_location elec c ∧
    ElecComp.get_type elec2 c = ElecComp.get_type elec c := by
  have h2 : elec2 = libelec_comp_set_failed elec c true := by
    rw [ElecComp.set_failed] at h
    exact (Except.ok.inj h).symm
  subst h2
  rw [ElecComp.get_name, ElecComp.get_location, ElecComp.get_type,
    libelec_comp_get_name, libelec_comp_get_location, libelec_comp_get_type,
    libelec_comp_set_failed, getComp_updateComp_self]
  by_cases hc : c < elec.comps.length <;>
    simp [hc, ElecComp.get_name, ElecComp.get_location, ElecComp.get_type,
      libelec_comp_get_name, libelec_comp_get_location,
      libelec_comp_get_type]

/-- C9: `ElecComp::get_conn` succeeds exactly on indices strictly below
`get_num_conns`, returning the i-th connection there, and fails the
assertion (panics) on every index at or beyond the connection count — so a
returned connection handle always corresponds to a valid connection
index. -/
theorem c9_get_conn_asserts_bounds (elec : elec_t) (c i : Nat) :
    (exceptOk (ElecComp.get_conn elec c i) = true ↔
      i < ElecComp.get_num_conns elec c) ∧
    (i < ElecComp.get_num_conns elec c →
      ElecComp.get_conn elec c i =
        Except.ok ((getComp elec c).conns.getD i 0)) ∧
    (ElecComp.get_num_conns elec c ≤ i →
      ElecComp.get_conn elec c i =
        Except.error ContractError.assertionFailure) := by
  by_cases h : i < ElecComp.get_num_conns elec c
  · refine ⟨by simp [ElecComp.get_conn, exceptOk, h], fun _ => ?_,
      fun h2 => absurd h (by omega)⟩
    rw [ElecComp.get_conn, if_pos h]
    rfl
  · refine ⟨by simp [ElecComp.get_conn, exceptOk, h], fun h2 => absurd h2 h,
      fun _ => ?_⟩
    rw [ElecComp.get_conn, if_neg h]

/-- C5 (amended): for every NUL-free name string, `ElecSys::comp_find`
returns `None` exactly when no component with that name exists in the
network; otherwise — whenever some component carries the name — it returns
`Some` handle to a component carrying that name; it never panics on a
NUL-free name (the result is always `Ok`), and mutates nothing.  (Strings
containing a NUL byte panic instead — see the counterexample.) -/
theorem c5_comp_find_amended (elec : elec_t) (name : String)
    (h : hasNulByte name = false) :
    ((ElecSys.comp_find elec name).1 = Except.ok none ↔
      ∀ comp ∈ elec.comps, comp.name ≠ name) ∧
    (∀ c, (ElecSys.comp_find elec name).1 = Except.ok (some c) →
      (getComp elec c).name = name) ∧
    (∀ comp ∈ elec.comps, comp.name = name →
      ∃ c, (ElecSys.comp_find elec name).1 = Except.ok (some c) ∧
        (getComp elec c).name = name) ∧
    (∃ r, (ElecSys.comp_find elec name).1 = Except.ok r) ∧
    (ElecSys.comp_find elec name).2 = elec := by
  refine ⟨?_, ?_, ?_, ?_, ?_⟩
  · cases hfind : libelec_comp_find elec name with
    | none =>
      simp only [ElecSys.comp_find, h, Bool.false_eq_true, if_false, hfind]
      simp only [libelec_comp_find] at hfind
      simpa using (findCompIdx_eq_none_iff elec.comps name).mp hfind
    | some j =>
      simp only [ElecSys.comp_find, h, Bool.false_eq_true, if_false, hfind]
      simp only [libelec_comp_find] at hfind
      constructor
      · intro hcontra
        cases hcontra
      · intro hall
        exfalso
        have hlt := findCompIdx_some_lt elec.comps name j hfind
        have hname := findCompIdx_some_name elec.comps name j hfind
        rw [List.getD_eq_getElem elec.comps default hlt] at hname
        exact hall (elec.comps[j]) (List.getElem_mem hlt) hname
  · intro c hc
    cases hfind : libelec_comp_find elec name with
    | none =>
      rw [ElecSys.comp_find] at hc
      simp [h, hfind] at hc
    | some j =>
      rw [ElecSys.comp_find] at hc
      simp only [h, Bool.false_eq_true, if_false, hfind] at hc
      have hj : j = c := by simpa using hc
      subst hj
      simp only [libelec_comp_find] at hfind
      exact findCompIdx_some_name elec.comps name j hfind
  · intro comp hmem hname
    cases hfind : libelec_comp_find elec name with
    | none =>
      exfalso
      simp only [libelec_comp_find] at hfind
      exact (findCompIdx_eq_none_iff elec.comps name).mp hfind comp hmem
        hname
    | some j =>
      refine ⟨j, ?_, ?_⟩
      · simp [ElecSys.comp_find, h, hfind]
      · simp only [libelec_comp_find] at hfind
        exact findCompIdx_some_name elec.comps name j hfind
  · cases hfind : libelec_comp_find elec name with
    | none => exact ⟨none, by simp [ElecSys.comp_find, h, hfind]⟩
    | some j => exact ⟨some j, by simp [ElecSys.comp_find, h, hfind]⟩
  · rw [ElecSys.comp_find]
    by_cases hb : hasNulByte name = true
    · rw [h] at hb
      cases hb
    · simp only [h, Bool.false_eq_true, if_false]
      cases libelec_comp_find elec name <;> rfl

/-- The empty network, for concrete evaluation. -/
def elecEmpty : elec_t :=
  { comps := [], started := false }

/-- A native constructor that always fails (always returns the null
handle), for concrete evaluation. -/
def nativeNewNone : String → Option elec_t :=
  fun _ => none

/-- C5 counterexample: on the empty network and the name consisting of a
single NUL byte, no component with that name exists, yet `comp_find` does
not return `None` — it panics in `CString::new(..).unwrap()`. -/
theorem c5_counterexample :
    (∀ comp ∈ elecEmpty.comps, comp.name ≠ "\x00") ∧
    (ElecSys.comp_find elecEmpty "\x00").1 ≠ Except.ok none ∧
    (ElecSys.comp_find elecEmpty "\x00").1 =
      Except.error RustPanic.panic := by
  refine ⟨?_, ?_, ?_⟩ <;> decide

/-- C6 (amended): for every NUL-free filename, `ElecSys::new` returns
`None` exactly when the native constructor fails (returns the null handle),
returns `Some` of the constructed network otherwise, and never raises any
other error.  (Filenames containing a NUL byte panic instead — see the
counterexample.)  The native constructor is universally quantified, so this
holds for every possible native outcome. -/
theorem c6_new_amended (nativeNew : String → Option elec_t)
    (filename : String) (h : hasNulByte filename = false) :
    (ElecSys.new nativeNew filename = Except.ok none ↔
      nativeNew filename = none) ∧
    (∀ s, ElecSys.new nativeNew filename = Except.ok (some s) ↔
      nativeNew filename = some s) ∧
    (∃ r, ElecSys.new nativeNew filename = Except.ok r) := by
  cases hn : nativeNew filename with
  | none =>
    refine ⟨?_, ?_, ?_⟩ <;>
      simp [ElecSys.new, h, hn]
  | some s =>
    refine ⟨?_, ?_, ?_⟩ <;>
      simp [ElecSys.new, h, hn]

/-- C6 counterexample: with a native constructor that always fails and a
filename consisting of a single NUL byte, native construction would fail,
yet `ElecSys::new` returns neither `None` nor `Some` — it panics in
`CString::new(..).unwrap()` before the native call. -/
theorem c6_counterexample :
    nativeNewNone "\x00" = none ∧
    ElecSys.new nativeNewNone "\x00" ≠ Except.ok none ∧
    ElecSys.new nativeNewNone "\x00" = Except.error RustPanic.panic := by
  refine ⟨rfl, ?_, ?_⟩ <;> decide

/-- C10: `ElecSys::new` and `ElecSys::comp_find` panic (via
`CString::new(..).unwrap()`) on every input string containing a NUL byte,
instead of returning `None`; a `None` result only ever arises from a
NUL-free string. -/
theorem c10_nul_byte_panics (elec : elec_t)
    (nativeNew : String → Option elec_t) (s : String) :
    (hasNulByte s = true →
      (ElecSys.comp_find elec s).1 = Except.error RustPanic.panic ∧
      ElecSys.new nativeNew s = Except.error RustPanic.panic) ∧
    ((ElecSys.comp_find elec s).1 = Except.ok none →
      hasNulByte s = false) ∧
    (ElecSys.new nativeNew s = Except.ok none →
      hasNulByte s = false) := by
  by_cases h : hasNulByte s = true
  · refine ⟨fun _ => ⟨by simp [ElecSys.comp_find, h], by
      simp [ElecSys.new, h]⟩, ?_, ?_⟩
    · intro hf
      exfalso
      simp [ElecSys.comp_find, h] at hf
    · intro hf
      exfalso
      simp [ElecSys.new, h] at hf
  · have h2 : hasNulByte s = false := by
      cases hb : hasNulByte s
      · rfl
      · exact absurd hb h
    exact ⟨fun hcontra => absurd hcontra h, fun _ => h2, fun _ => h2⟩

/-!
Concrete networks used to witness the theorems above on explicit inputs.
-/

/-- A small concrete network: a generator, two buses, and a tie across the
buses. -/
def elecW : elec_t :=
  { comps :=
      [{ name := "GEN1", location := "ELEC BAY", ctype := CompType.Gen,
         conns := [1] },
       { name := "BUS1", location := "ELEC BAY", ctype := CompType.Bus,
         conns := [0, 2] },
       { name := "TIE1", location := "ELEC BAY", ctype := CompType.Tie,
         conns := [1, 3], tieBuses := [1, 3] },
       { name := "BUS2", location := "ELEC BAY", ctype := CompType.Bus,
         conns := [2] }],
    started := false }

/-- A native constructor that always succeeds with `elecW`, for concrete
evaluation. -/
def nativeNewW : String → Option elec_t :=
  fun _ => some elecW

/-- Witness for C2 at the concrete tie `TIE1` of `elecW`: setting the
membership list `[1]` and reading it back, and tying all then querying
"get all". -/
theorem c2_witness :
    (∃ M, ElecComp.tie_get_list (libelec_tie_set_list elecW 2 [1]) 2 =
      Except.ok M ∧ M.Perm [1]) ∧
    ElecComp.tie_get_all (libelec_tie_set_all elecW 2 true) 2 =
      Except.ok true :=
  ⟨(c2_tie_round_trip elecW (libelec_tie_set_list elecW 2 [1]) 2 [1]).1
      (by decide),
   (c2_tie_round_trip elecW (libelec_tie_set_all elecW 2 true) 2 [1]).2
      (by decide)⟩

/-- Witness for the amended C5 at the concrete network `elecW` and the
NUL-free name "GEN1", which is present (component 0): the lookup returns
`Some` handle to a component carrying that name, and mutates nothing. -/
theorem c5_witness :
    (∃ c, (ElecSys.comp_find elecW "GEN1").1 = Except.ok (some c) ∧
      (getComp elecW c).name = "GEN1") ∧
    (ElecSys.comp_find elecW "GEN1").2 = elecW :=
  ⟨(c5_comp_find_amended elecW "GEN1" (by decide)).2.2.1
      (getComp elecW 0) (by decide) (by decide),
   (c5_comp_find_amended elecW "GEN1" (by decide)).2.2.2.2⟩

/-- Witness for the amended C6 at a concrete native constructor and the
NUL-free filename "test.net". -/
theorem c6_witness :
    (ElecSys.new nativeNewW "test.net" = Except.ok none ↔
      nativeNewW "test.net" = none) ∧
    (∃ r, ElecSys.new nativeNewW "test.net" = Except.ok r) :=
  ⟨(c6_new_amended nativeNewW "test.net" (by decide)).1,
   (c6_new_amended nativeNewW "test.net" (by decide)).2.2⟩

/-- Witness for C7 at component `GEN1` of `elecW`. -/
theorem c7_witness :
    ElecComp.get_name (libelec_comp_set_failed elecW 0 true) 0 =
      ElecComp.get_name elecW 0 ∧
    ElecComp.get_location (libelec_comp_set_failed elecW 0 true) 0 =
      ElecComp.get_location elecW 0 ∧
    ElecComp.get_type (libelec_comp_set_failed elecW 0 true) 0 =
      ElecComp.get_type elecW 0 :=
  c7_set_failed_preserves_identity elecW
    (libelec_comp_set_failed elecW 0 true) 0 rfl

/-- Witness for C9 at component `BUS1` of `elecW` (two connections):
index 0 is in bounds and returns a handle, index 5 fails the assertion. -/
theorem c9_witness :
    ElecComp.get_conn elecW 1 0 =
      Except.ok ((getComp elecW 1).conns.getD 0 0) ∧
    ElecComp.get_conn elecW 1 5 =
      Except.error ContractError.assertionFailure :=
  ⟨(c9_get_conn_asserts_bounds elecW 1 0).2.1 (by decide),
   (c9_get_conn_asserts_bounds elecW 1 5).2.2 (by decide)⟩

/-- Witness for C10 at the concrete network `elecW`, the always-failing
native constructor, and the string consisting of a single NUL byte. -/
theorem c10_witness :
    (ElecSys.comp_find elecW "\x00").1 = Except.error RustPanic.panic ∧
    ElecSys.new nativeNewNone "\x00" = Except.error RustPanic.panic :=
  (c10_nul_byte_panics elecW nativeNewNone "\x00").1 (by decide)
